import Mathlib

/-
Verification of the riegeli record-container core against its sources.

The embedding covers:
  * `Decompressor` construction (`riegeli/chunk_encoding/decompressor.h`),
  * `ParseFromChain` (`riegeli/bytes/message_parse.cc`),
  * `PushableBackwardWriter` scratch handling
    (`pushable_backward_writer.cc`, included in `riegeli/bytes/message_parse.cc`),
  * the `RecordReaderBase` positioning and recovery state machine
    (`riegeli/records/record_reader.cc`).

Components that the sources only call into (`ChunkReader`, `ChunkDecoder`,
varint reading, the `Reader`/`BackwardWriter` buffer protocol from the
headers) are modelled from the specification; every such definition carries a
doc comment starting with `Modelled from the spec:`.
-/

namespace Riegeli

/-- A byte, modelled as a natural number; well-formed data keeps values
below 256. -/
abbrev Byte := Nat

/-- Modelled from the spec: the copy threshold `kMaxBytesToCopy` of
`riegeli/base/chain.h` (outside the provided sources); §4.1 gives it as
approximately 255. -/
def kMaxBytesToCopy : Nat := 255

/-- Error kinds of §7 that the embedded operations distinguish. -/
inductive ErrorKind where
  | invalidArgument
  | dataLoss
  deriving DecidableEq, Repr

/-! ## Varints -/

/-- Modelled from the spec: the loop of `ReadVarint64`
(`riegeli/varint/varint_reading.h`, outside the provided sources); §6 fixes
varints as unsigned LEB128 with at most 10 bytes for a 64-bit value. The
first argument counts the bytes the loop may still consume. -/
def readVarint64Loop : Nat → List Byte → Nat → Nat → Option (Nat × List Byte)
  | 0, _, _, _ => none
  | _ + 1, [], _, _ => none
  | n + 1, b :: rest, shift, acc =>
    if b < 128 then some (acc + b * 2 ^ shift, rest)
    else readVarint64Loop n rest (shift + 7) (acc + b % 128 * 2 ^ shift)

/-- Modelled from the spec: `ReadVarint64` decodes one LEB128 varint from the
front of the byte sequence, returning the value and the remaining bytes, or
`none` when the input ends or ten bytes pass without a terminating byte. -/
def readVarint64 (s : List Byte) : Option (Nat × List Byte) :=
  readVarint64Loop 10 s 0 0

/-! ## Decompressor (`riegeli/chunk_encoding/decompressor.h`) -/

/-- Compression-type byte (`riegeli/chunk_encoding/constants.h`; §6:
`0=None, 1=Brotli, 2=Zstd, 3=Snappy`). -/
inductive CompressionType where
  | kNone
  | kBrotli
  | kZstd
  | kSnappy
  deriving DecidableEq, Repr

/-- One alternative of the `absl::variant` held by `Decompressor::reader_`
(`decompressor.h`, lines 114-116), recording the arguments of the `emplace`
call that constructed it: the source reader handed over (represented by the
bytes it still has to deliver) and, where the call passes one through
`Options().set_size_hint(...)`, the size hint. -/
inductive DecompressorReader where
  | wrappedReader (src : List Byte)
  | brotliReader (src : List Byte)
  | zstdReader (src : List Byte) (sizeHint : Nat)
  | snappyReader (src : List Byte)
  deriving DecidableEq, Repr

/-- The bytes the codec reader was constructed over. -/
def DecompressorReader.srcRest : DecompressorReader → List Byte
  | .wrappedReader s => s
  | .brotliReader s => s
  | .zstdReader s _ => s
  | .snappyReader s => s

/-- Result of constructing or `Reset`-ing a `Decompressor`: either the
constructed reader variant, or a failed `Decompressor` with its status. -/
inductive DecompressorInit where
  | ok (reader : DecompressorReader)
  | failed (status : ErrorKind)
  deriving DecidableEq, Repr

/-- The size hint the constructed codec reader received, if any. -/
def DecompressorInit.sizeHint? : DecompressorInit → Option Nat
  | .ok (.zstdReader _ h) => some h
  | _ => none

/-- The bytes the constructed codec reader was handed, if construction
succeeded. -/
def DecompressorInit.srcRest? : DecompressorInit → Option (List Byte)
  | .ok r => some r.srcRest
  | .failed _ => none

/-- `Decompressor::Initialize` (`decompressor.h`, lines 188-225), renamed to
`decompressorInit`; the source reader is represented by the byte sequence it
delivers. For `kNone` the source is wrapped unchanged; otherwise one varint
`uncompressed_size` is read first, failing with `DataLoss` when that read
fails, and the advanced reader is handed to the codec constructor, zstd
additionally receiving the varint value as a size hint. -/
def decompressorInit (src : List Byte) (ct : CompressionType) : DecompressorInit :=
  if ct = CompressionType.kNone then .ok (.wrappedReader src)
  else
    match readVarint64 src with
    | none => .failed .dataLoss
    | some (uncompressedSize, rest) =>
      match ct with
      | .kNone => .failed .dataLoss
      | .kBrotli => .ok (.brotliReader rest)
      | .kZstd => .ok (.zstdReader rest uncompressedSize)
      | .kSnappy => .ok (.snappyReader rest)

/-! ## `ParseFromChain` (`riegeli/bytes/message_parse.cc`) -/

/-- A `Chain`: an ordered sequence of immutable byte blocks (§4.1). -/
abbrev Chain := List (List Byte)

/-- The full contents of a chain, block by block. -/
def Chain.flat (c : Chain) : List Byte := c.flatten

/-- `Chain::size()`: the total byte count. -/
def Chain.size (c : Chain) : Nat := c.flat.length

/-- `Chain::TryFlat()`: the contents as one contiguous slice, available
exactly when the chain consists of at most one block (§4.1). -/
def Chain.tryFlat : Chain → Option (List Byte)
  | [] => some []
  | [b] => some b
  | _ => none

/-- Outcome of parsing a message: the returned `Status` together with the
message the destination holds afterwards. `parseError` is the `DataLoss` of a
failed wire parse; `uninitialized` is the `DataLoss` that `CheckInitialized`
reports when required fields are missing, the destination still holding the
parsed message. -/
inductive ParseOutcome (M : Type) where
  | ok (msg : M)
  | uninitialized (msg : M)
  | parseError
  deriving DecidableEq

/-- `CheckInitialized` (`message_parse.cc`, lines 110-119): unless
`options.partial()` is set, a parsed message missing required fields turns
into a `DataLoss` error. The protobuf message type is abstract, so the
initialization test `isInit` is a parameter. -/
def checkInitializedOutcome {M : Type} (isInit : M → Bool) (allowUninit : Bool)
    (m : M) : ParseOutcome M :=
  if !allowUninit && !isInit m then .uninitialized m else .ok m

/-- Modelled from the spec: the general parse path of `ParseFromChain`
(`message_parse.cc`, lines 172-181) parses from a
`ReaderInputStream` over a `ChainReader`; `ChainReader` (outside the provided
sources) exposes exactly the bytes of the chain (§4.1), so the stream
delivers `Chain.flat` to the external protobuf parser `p`. -/
def parseViaZeroCopyStream {M : Type} (p : List Byte → Option M)
    (isInit : M → Bool) (allowUninit : Bool) (src : Chain) : ParseOutcome M :=
  match p src.flat with
  | none => .parseError
  | some m => checkInitializedOutcome isInit allowUninit m

/-- `ParseFromChain` (`message_parse.cc`, lines 158-182): when the chain is
small and flat, parse directly from the flat array; otherwise parse through
the `ChainReader`-backed zero-copy stream. -/
def parseFromChain {M : Type} (p : List Byte → Option M) (isInit : M → Bool)
    (allowUninit : Bool) (src : Chain) : ParseOutcome M :=
  if src.size ≤ kMaxBytesToCopy then
    match src.tryFlat with
    | some flat =>
      match p flat with
      | none => .parseError
      | some m => checkInitializedOutcome isInit allowUninit m
    | none => parseViaZeroCopyStream p isInit allowUninit src
  else parseViaZeroCopyStream p isInit allowUninit src

/-! ## `PushableBackwardWriter` scratch
(`pushable_backward_writer.cc`, included in `riegeli/bytes/message_parse.cc`) -/

/-- Modelled from the spec: the buffer state of a `BackwardWriter`
(`backward_writer.h`, outside the provided sources; §4.1). The buffer is a
memory region written from its high-address end towards its beginning; `buf`
lists the bytes of the region lowest address first, so the
`writtenToBuffer` most recently written bytes occupy the final entries of
`buf`, in output order, and the base pointer `limit()` is represented by the
region `buf` itself. `dest` holds the bytes already handed to the
destination, in final output order: a backward writer prepends, so data
written later stands earlier in `dest`. `pos()` is
`start_pos() + written_to_buffer()`. -/
structure BackwardWriterRep where
  dest : List Byte
  startPos : Nat
  buf : List Byte
  bufferSize : Nat
  writtenToBuffer : Nat
  deriving DecidableEq, Repr

/-- `pos()` of a backward writer. -/
def BackwardWriterRep.pos (w : BackwardWriterRep) : Nat :=
  w.startPos + w.writtenToBuffer

/-- The bytes written into the current buffer, in output order: the final
`writtenToBuffer` entries of the region. -/
def BackwardWriterRep.writtenBytes (w : BackwardWriterRep) : List Byte :=
  w.buf.drop (w.buf.length - w.writtenToBuffer)

/-- `set_buffer(limit, buffer_size, written_to_buffer)`. -/
def BackwardWriterRep.setBuffer (w : BackwardWriterRep) (l : List Byte)
    (size wtb : Nat) : BackwardWriterRep :=
  { w with buf := l, bufferSize := size, writtenToBuffer := wtb }

/-- Modelled from the spec: `BackwardWriter::Write` of the underlying
destination (virtual, outside the provided sources). Following §9 — a
"growable prepend buffer whose finalization concatenates prepend-order into
the outgoing chain" — the buffered bytes are flushed and `s` is placed before
all data written earlier; `pos()` grows by the length of `s`. The write
reports success: a chain-backed destination cannot fail. -/
def BackwardWriterRep.write (w : BackwardWriterRep) (s : List Byte) :
    Bool × BackwardWriterRep :=
  (true,
    { dest := s ++ w.writtenBytes ++ w.dest
      startPos := w.startPos + w.writtenToBuffer + s.length
      buf := []
      bufferSize := 0
      writtenToBuffer := 0 })

/-- The bytes the writer has produced so far, buffered bytes included, in
final output order. -/
def BackwardWriterRep.totalOutput (w : BackwardWriterRep) : List Byte :=
  w.writtenBytes ++ w.dest

/-- `PushableBackwardWriter::Scratch`: the scratch `ChainBlock` (its bytes in
memory order) and the saved buffer the scratch replaced. -/
structure Scratch where
  buffer : List Byte
  originalLimit : List Byte
  originalBufferSize : Nat
  originalWrittenToBuffer : Nat
  deriving DecidableEq, Repr

/-- `PushableBackwardWriter::SyncScratchSlow` (`message_parse.cc`, lines
261-290): remembers how many bytes went into the scratch, reinstates the
original buffer and start position, and writes the scratch bytes — the final
`length_to_write` bytes of the block, through one of three equivalent
representations — to the underlying destination. Returns the success flag,
the writer, and the emptied scratch. -/
def syncScratchSlow (w : BackwardWriterRep) (scratch : Scratch) :
    Bool × BackwardWriterRep × Scratch :=
  let lengthToWrite := w.writtenToBuffer
  let w1 := w.setBuffer scratch.originalLimit scratch.originalBufferSize
    scratch.originalWrittenToBuffer
  let w2 := { w1 with startPos := w1.startPos - w1.writtenToBuffer }
  let buffer := scratch.buffer
  let scratch1 := { scratch with buffer := [] }
  let result :=
    if lengthToWrite = buffer.length then
      w2.write buffer
    else if lengthToWrite ≤ kMaxBytesToCopy then
      w2.write (buffer.drop (buffer.length - lengthToWrite))
    else
      w2.write (buffer.drop (buffer.length - lengthToWrite))
  (result.1, result.2, scratch1)

/-- `PushableBackwardWriter::BehindScratch::Enter` (`message_parse.cc`, lines
292-305): saves `written_to_scratch_`, reinstates the original buffer, and
moves the start position back by the reinstated `written_to_buffer()`.
Returns the writer together with the saved `written_to_scratch_`. -/
def behindScratchEnter (w : BackwardWriterRep) (scratch : Scratch) :
    BackwardWriterRep × Nat :=
  let writtenToScratch := w.writtenToBuffer
  let w1 := w.setBuffer scratch.originalLimit scratch.originalBufferSize
    scratch.originalWrittenToBuffer
  let w2 := { w1 with startPos := w1.startPos - w1.writtenToBuffer }
  (w2, writtenToScratch)

/-- `PushableBackwardWriter::BehindScratch::Leave` (`message_parse.cc`, lines
307-314): records the current position as start position, saves the current
buffer into the scratch, and points the buffer back at the scratch block.
The source assigns `scratch_->original_limit` twice (lines 309 and 311); the
second assignment is kept as written. -/
def behindScratchLeave (w : BackwardWriterRep) (scratch : Scratch)
    (writtenToScratch : Nat) : BackwardWriterRep × Scratch :=
  let w1 := { w with startPos := w.pos }
  let scratch1 := { scratch with originalLimit := w1.buf }
  let scratch2 := { scratch1 with originalBufferSize := w1.bufferSize }
  let scratch3 := { scratch2 with originalLimit := w1.buf }
  (w1.setBuffer scratch3.buffer scratch3.buffer.length writtenToScratch, scratch3)

/-! ## Chunk layer models

`ChunkReader` and `ChunkDecoder` live in `riegeli/records/chunk_reader.*` and
`riegeli/chunk_encoding/chunk_decoder.*`, outside the provided sources; the
record layer in `record_reader.cc` drives them through their contracts, which
§4.3 and §4.5 state. The models below follow those contracts. -/

/-- Chunk types (§3; `riegeli/chunk_encoding/constants.h`). -/
inductive ChunkType where
  | kFileSignature
  | kFileMetadata
  | kPadding
  | kSimple
  | kTransposed
  deriving DecidableEq, Repr

/-- A record: an opaque byte string. -/
abbrev Record := List Byte

/-- The serialized `RecordsMetadata` message, abstracted to its bytes. -/
abbrev Metadata := List Byte

/-- Modelled from the spec: a chunk as the record layer observes it through
`ChunkReader` and `ChunkDecoder` (both outside the provided sources): the
framed size in bytes it occupies in the file, the header chunk type and
record count (§3), whether its framing and checksums verify on read (§4.5),
whether its body decodes (§4.3), the decoded records, and the metadata that
the `ParseMetadata` decode-verify-parse pipeline would extract from it
(`none` when that pipeline fails). -/
structure MChunk where
  size : Nat
  ctype : ChunkType
  numRecords : Nat
  readOk : Bool
  decodeOk : Bool
  records : List Record
  metaParse : Option Metadata
  deriving DecidableEq, Repr

/-- Total byte size of a list of chunks laid out consecutively. -/
def fileSizeOf (chunks : List MChunk) : Nat := (chunks.map MChunk.size).sum

/-- The chunk beginning exactly at offset `p` of a consecutive layout, if
any. -/
def chunkAt : List MChunk → Nat → Option MChunk
  | [], _ => none
  | c :: rest, p =>
    if p = 0 then some c
    else if p < c.size then none
    else chunkAt rest (p - c.size)

/-- Begin offset of the chunk whose byte range contains `p`; `none` when `p`
is at or past the end of the layout. -/
def chunkBeginContaining : List MChunk → Nat → Option Nat
  | [], _ => none
  | c :: rest, p =>
    if p < c.size then some 0
    else (chunkBeginContaining rest (p - c.size)).map (· + c.size)

/-- Begin offsets of all chunks of a consecutive layout starting at `b`. -/
def chunkBeginsFrom : Nat → List MChunk → List Nat
  | _, [] => []
  | b, c :: rest => b :: chunkBeginsFrom (b + c.size) rest

/-- Begin offsets of all chunks. -/
def chunkBegins (chunks : List MChunk) : List Nat := chunkBeginsFrom 0 chunks

/-- Modelled from the spec: the state of a `ChunkReader` (§4.5): the chunks
of the file in order (chunk `i` occupying `size` bytes from where chunk
`i-1` ended), the current position, and health. -/
structure MChunkReader where
  chunks : List MChunk
  pos : Nat
  healthy : Bool
  deriving DecidableEq, Repr

/-- End-of-file position of the chunk reader. -/
def MChunkReader.fileSize (cr : MChunkReader) : Nat := fileSizeOf cr.chunks

/-- Modelled from the spec: `ChunkReader::ReadChunk` (§4.5): at the end of
file it returns `false` leaving the reader healthy; at a chunk boundary whose
framing verifies it returns the chunk and advances past it; on a
verification failure, or away from any chunk boundary, it fails. -/
def MChunkReader.readChunk (cr : MChunkReader) : Option MChunk × MChunkReader :=
  if cr.healthy then
    match chunkAt cr.chunks cr.pos with
    | some c =>
      if c.readOk then (some c, { cr with pos := cr.pos + c.size })
      else (none, { cr with healthy := false })
    | none =>
      if cr.pos = cr.fileSize then (none, cr)
      else (none, { cr with healthy := false })
  else (none, cr)

/-- Modelled from the spec: `ChunkReader::PullChunkHeader` (§4.5) peeks at
the chunk header at the current position without consuming the chunk,
failing like `ReadChunk` on a header that does not verify, and returning
`false` healthily at the end of file. -/
def MChunkReader.pullChunkHeader (cr : MChunkReader) : Option ChunkType × MChunkReader :=
  if cr.healthy then
    match chunkAt cr.chunks cr.pos with
    | some c =>
      if c.readOk then (some c.ctype, cr)
      else (none, { cr with healthy := false })
    | none =>
      if cr.pos = cr.fileSize then (none, cr)
      else (none, { cr with healthy := false })
  else (none, cr)

/-- Modelled from the spec: `ChunkReader::Seek(new_pos)` positions the reader
at `new_pos`; callers pass chunk boundaries, and a wrong boundary surfaces at
the next read, so the seek itself fails only beyond the end of file. -/
def MChunkReader.seek (cr : MChunkReader) (p : Nat) : Bool × MChunkReader :=
  if cr.healthy then
    if p ≤ cr.fileSize then (true, { cr with pos := p })
    else (false, { cr with healthy := false })
  else (false, cr)

/-- Modelled from the spec: `ChunkReader::SeekToChunkContaining(byte_pos)`
(§4.5) positions the reader at the boundary of the chunk whose byte range
contains `byte_pos`, or at the end of file when `byte_pos` equals it, and
fails beyond the end. -/
def MChunkReader.seekToChunkContaining (cr : MChunkReader) (p : Nat) :
    Bool × MChunkReader :=
  if cr.healthy then
    match chunkBeginContaining cr.chunks p with
    | some b => (true, { cr with pos := b })
    | none =>
      if p = cr.fileSize then (true, { cr with pos := p })
      else (false, { cr with healthy := false })
  else (false, cr)

/-- Modelled from the spec: `ChunkReader::Recover` (§4.5) scans forward from
the failed position to the next chunk boundary the block headers advertise
and resumes there — at the end of file when no boundary follows — emitting
the skipped byte range. -/
def MChunkReader.recover (cr : MChunkReader) : Bool × (Nat × Nat) × MChunkReader :=
  let target :=
    match (chunkBegins cr.chunks).filter (fun b => cr.pos < b) with
    | [] => cr.fileSize
    | b :: _ => b
  (true, (cr.pos, target), { cr with pos := target, healthy := true })

/-- Modelled from the spec: `ChunkReader::CheckFileFormat` (§4.5) verifies
that the file begins with a `FileSignature` chunk; on an empty file it
returns `false` with the reader left healthy. -/
def MChunkReader.checkFileFormat (cr : MChunkReader) : Bool × MChunkReader :=
  if cr.healthy then
    match cr.chunks with
    | [] => (false, cr)
    | c :: _ =>
      if c.readOk then
        if c.ctype = ChunkType.kFileSignature then (true, cr)
        else (false, { cr with healthy := false })
      else (false, { cr with healthy := false })
  else (false, cr)

/-- Modelled from the spec: `ChunkReader::Size` reports the file size. -/
def MChunkReader.sizeOp (cr : MChunkReader) : Option Nat :=
  if cr.healthy then some cr.fileSize else none

/-- Modelled from the spec: the state of a `ChunkDecoder` (§4.3): the decoded
records of the current chunk, the current record index, and health. -/
structure MChunkDecoder where
  records : List Record
  index : Nat
  healthy : Bool
  deriving DecidableEq, Repr

/-- `ChunkDecoder::Reset()`: a cleared decoder holding no records. -/
def MChunkDecoder.cleared : MChunkDecoder :=
  { records := [], index := 0, healthy := true }

/-- `num_records()` of the decoder. -/
def MChunkDecoder.numRecords (d : MChunkDecoder) : Nat := d.records.length

/-- Modelled from the spec: `ChunkDecoder::Reset(chunk)` decodes the chunk
(§4.3): on success the decoder holds the records of the chunk at index 0; on
a format violation the decode fails and the decoder is unhealthy. -/
def MChunkDecoder.resetWith (c : MChunk) : Bool × MChunkDecoder :=
  if c.decodeOk then (true, { records := c.records, index := 0, healthy := true })
  else (false, { records := [], index := 0, healthy := false })

/-- Modelled from the spec: `ChunkDecoder::ReadRecord` yields the record at
the current index and advances the index, returning `none` at the end of the
chunk or on an unhealthy decoder. -/
def MChunkDecoder.readRecord (d : MChunkDecoder) : Option Record × MChunkDecoder :=
  if d.healthy then
    match d.records.get? d.index with
    | some r => (some r, { d with index := d.index + 1 })
    | none => (none, d)
  else (none, d)

/-- Modelled from the spec: `ChunkDecoder::SetIndex` sets the current record
index (§4.6: "only update record index"). -/
def MChunkDecoder.setIndex (d : MChunkDecoder) (i : Nat) : MChunkDecoder :=
  { d with index := i }

/-- Modelled from the spec: `ChunkDecoder::Recover`: after a decode failure
the decoder returns to healthy positioned past the records of the chunk
(§4.3: "recovery advances past the chunk"); a healthy decoder has nothing to
recover from and reports `false`. -/
def MChunkDecoder.recover (d : MChunkDecoder) : Bool × MChunkDecoder :=
  if d.healthy then (false, d)
  else (true, { d with healthy := true, index := d.records.length })

/-! ## `RecordReaderBase` (`riegeli/records/record_reader.cc`) -/

/-- `Recoverable` (record_reader.h): which substate a failure left
recoverable. -/
inductive Recoverable where
  | kNo
  | kRecoverChunkReader
  | kRecoverChunkDecoder
  deriving DecidableEq, Repr

/-- The state of a `RecordReaderBase`: the `ChunkReader` source, the begin
offset of the current chunk, the chunk decoder, the recoverable flag, and
the `Object` health state — the recorded failure, if any, and whether the
object is closed. -/
structure RecordReaderBase where
  src : MChunkReader
  chunkBegin : Nat
  chunkDecoder : MChunkDecoder
  recoverable : Recoverable
  failed : Option ErrorKind
  closed : Bool
  deriving DecidableEq, Repr

/-- `Object::healthy()`: not failed and not closed. -/
def RecordReaderBase.healthy (st : RecordReaderBase) : Bool :=
  st.failed.isNone && !st.closed

/-- `Object::Fail`: record a failure. -/
def RecordReaderBase.failWith (st : RecordReaderBase) (e : ErrorKind) :
    RecordReaderBase :=
  { st with failed := some e }

/-- Modelled from the spec: `RecordReaderBase::pos()` (record_reader.h,
outside the provided sources) is `RecordPosition(chunk_begin_,
chunk_decoder_.index())` (§4.6); its numeric value is
`chunk_begin + record_index` (§3). -/
def RecordReaderBase.posNumeric (st : RecordReaderBase) : Nat :=
  st.chunkBegin + st.chunkDecoder.index

/-- `RecordReaderBase::Initialize` (record_reader.cc, lines 118-122), renamed
to `init`: a fresh reader over `cr` with a cleared decoder. -/
def RecordReaderBase.init (cr : MChunkReader) : RecordReaderBase :=
  { src := cr, chunkBegin := cr.pos, chunkDecoder := MChunkDecoder.cleared,
    recoverable := .kNo, failed := none, closed := false }

/-- `RecordReaderBase::ReadChunk` (record_reader.cc, lines 376-393). -/
def RecordReaderBase.readChunkOp (st : RecordReaderBase) :
    Bool × RecordReaderBase :=
  let st := { st with chunkBegin := st.src.pos }
  match st.src.readChunk with
  | (none, cr) =>
    let st := { st with src := cr, chunkDecoder := MChunkDecoder.cleared }
    if cr.healthy then (false, st)
    else (false, { st with recoverable := .kRecoverChunkReader,
                           failed := some .dataLoss })
  | (some c, cr) =>
    match MChunkDecoder.resetWith c with
    | (true, d) => (true, { st with src := cr, chunkDecoder := d })
    | (false, d) =>
      (false, { st with src := cr, chunkDecoder := d,
                        recoverable := .kRecoverChunkDecoder,
                        failed := some .dataLoss })

/-- The loop of `RecordReaderBase::ReadRecordSlow` (record_reader.cc, lines
241-255); `fuel` bounds how many chunks the loop may pass over and is chosen
by the caller so that it never runs out. -/
def RecordReaderBase.readRecordSlowLoop :
    Nat → RecordReaderBase → Option Record × RecordReaderBase
  | 0, st => (none, st)
  | fuel + 1, st =>
    if st.chunkDecoder.healthy then
      match st.readChunkOp with
      | (false, st1) => (none, st1)
      | (true, st1) =>
        match st1.chunkDecoder.readRecord with
        | (some r, d) => (some r, { st1 with chunkDecoder := d })
        | (none, d) =>
          RecordReaderBase.readRecordSlowLoop fuel { st1 with chunkDecoder := d }
    else
      (none, { st with recoverable := .kRecoverChunkDecoder,
                       failed := some .dataLoss })

/-- `RecordReaderBase::ReadRecordSlow` (record_reader.cc, lines 233-256):
fails on an unhealthy reader, then loops reading chunks until a record is
available or reading fails; one chunk of the file can feed at most one loop
iteration, so `chunks.length + 1` rounds of fuel always suffice. -/
def RecordReaderBase.readRecordSlow (st : RecordReaderBase) :
    Option Record × RecordReaderBase :=
  if st.healthy then
    RecordReaderBase.readRecordSlowLoop (st.src.chunks.length + 1) st
  else (none, st)

/-- Modelled from the spec: `RecordReaderBase::ReadRecord` (record_reader.h,
outside the provided sources): the fast path takes the next record from the
current chunk through the decoder ("Advance index", §4.6) and otherwise
falls to `ReadRecordSlow` (record_reader.cc). -/
def RecordReaderBase.readRecord (st : RecordReaderBase) :
    Option Record × RecordReaderBase :=
  match st.chunkDecoder.readRecord with
  | (some r, d) => (some r, { st with chunkDecoder := d })
  | (none, _) => st.readRecordSlow

/-- `RecordReaderBase::Recover` (record_reader.cc, lines 267-299): consumes
the recoverable flag, returns to not-failed, and recovers the affected
substate; reports whether recovery happened together with the
`SkippedRegion`. -/
def RecordReaderBase.recover (st : RecordReaderBase) :
    Bool × Option (Nat × Nat) × RecordReaderBase :=
  if st.recoverable = Recoverable.kNo then (false, none, st)
  else
    let recoverable := st.recoverable
    let st := { st with recoverable := .kNo, failed := none }
    match recoverable with
    | .kNo => (false, none, st)
    | .kRecoverChunkReader =>
      match st.src.recover with
      | (true, skipped, cr) => (true, some skipped, { st with src := cr })
      | (false, _, cr) =>
        (false, none, { st with src := cr, failed := some .dataLoss })
    | .kRecoverChunkDecoder =>
      let indexBefore := st.chunkDecoder.index
      let d :=
        match st.chunkDecoder.recover with
        | (true, d) => d
        | (false, _) => MChunkDecoder.cleared
      let st := { st with chunkDecoder := d }
      (true, some (st.chunkBegin + indexBefore, st.posNumeric), st)

/-- `RecordReaderBase::Seek(RecordPosition)` (record_reader.cc, lines
313-343); the position is the pair `(chunk_begin, record_index)` (§3). -/
def RecordReaderBase.seekRecordPosition (st : RecordReaderBase)
    (newPos : Nat × Nat) : Bool × RecordReaderBase :=
  if st.healthy then
    if newPos.1 = st.chunkBegin then
      if newPos.2 = 0 ∨ st.chunkBegin < st.src.pos then
        (true, { st with chunkDecoder := st.chunkDecoder.setIndex newPos.2 })
      else
        match st.readChunkOp with
        | (false, st1) => (false, st1)
        | (true, st1) =>
          (true, { st1 with chunkDecoder := st1.chunkDecoder.setIndex newPos.2 })
    else
      match st.src.seek newPos.1 with
      | (false, cr) =>
        (false, { st with src := cr, chunkBegin := cr.pos,
                          chunkDecoder := MChunkDecoder.cleared,
                          recoverable := .kRecoverChunkReader,
                          failed := some .dataLoss })
      | (true, cr) =>
        if newPos.2 = 0 then
          (true, { st with src := cr, chunkBegin := cr.pos,
                           chunkDecoder := MChunkDecoder.cleared })
        else
          match ({ st with src := cr }).readChunkOp with
          | (false, st1) => (false, st1)
          | (true, st1) =>
            (true, { st1 with chunkDecoder := st1.chunkDecoder.setIndex newPos.2 })
  else (false, st)

/-- `RecordReaderBase::Seek(Position)` (record_reader.cc, lines 345-374). -/
def RecordReaderBase.seekPosition (st : RecordReaderBase) (newPos : Nat) :
    Bool × RecordReaderBase :=
  if st.healthy then
    if st.chunkBegin ≤ newPos ∧ newPos ≤ st.src.pos then
      (true, { st with chunkDecoder :=
        st.chunkDecoder.setIndex (newPos - st.chunkBegin) })
    else
      match st.src.seekToChunkContaining newPos with
      | (false, cr) =>
        (false, { st with src := cr, chunkBegin := cr.pos,
                          chunkDecoder := MChunkDecoder.cleared,
                          recoverable := .kRecoverChunkReader,
                          failed := some .dataLoss })
      | (true, cr) =>
        if newPos ≤ cr.pos then
          (true, { st with src := cr, chunkBegin := cr.pos,
                           chunkDecoder := MChunkDecoder.cleared })
        else
          match ({ st with src := cr }).readChunkOp with
          | (false, st1) => (false, st1)
          | (true, st1) =>
            (true, { st1 with chunkDecoder :=
              st1.chunkDecoder.setIndex (newPos - st1.chunkBegin) })
  else (false, st)

/-- `RecordReaderBase::ParseMetadata` (record_reader.cc, lines 195-231):
rejects a metadata chunk whose record count is not zero, then runs the
transpose-decode, verify and proto-parse pipeline, whose outcome the chunk
model carries as `metaParse`; every failure path records a failure on the
reader. -/
def RecordReaderBase.parseMetadata (st : RecordReaderBase) (c : MChunk) :
    Option Metadata × RecordReaderBase :=
  if c.numRecords ≠ 0 then (none, st.failWith .dataLoss)
  else
    match c.metaParse with
    | none => (none, st.failWith .dataLoss)
    | some m => (some m, st)

/-- `RecordReaderBase::ReadMetadata` (record_reader.cc, lines 144-193). The
middle component is the metadata delivered to the caller, `some []` standing
for a cleared, empty `RecordsMetadata`. -/
def RecordReaderBase.readMetadata (st : RecordReaderBase) :
    Bool × Option Metadata × RecordReaderBase :=
  if st.healthy then
    if st.src.pos ≠ 0 then
      (false, none, st.failWith .invalidArgument)
    else
      let st := { st with chunkBegin := st.src.pos }
      match st.src.readChunk with
      | (none, cr) =>
        if cr.healthy then (false, none, { st with src := cr })
        else
          (false, none, { st with src := cr,
                                  recoverable := .kRecoverChunkReader,
                                  failed := some .dataLoss })
      | (some _, cr) =>
        let st := { st with src := cr, chunkBegin := cr.pos }
        match st.src.pullChunkHeader with
        | (none, cr2) =>
          if cr2.healthy then (false, none, { st with src := cr2 })
          else
            (false, none, { st with src := cr2,
                                    recoverable := .kRecoverChunkReader,
                                    failed := some .dataLoss })
        | (some ctype, cr2) =>
          let st := { st with src := cr2 }
          if ctype ≠ ChunkType.kFileMetadata then (true, some [], st)
          else
            match st.src.readChunk with
            | (none, cr3) =>
              if cr3.healthy then (false, none, { st with src := cr3 })
              else
                (false, none, { st with src := cr3,
                                        recoverable := .kRecoverChunkReader,
                                        failed := some .dataLoss })
            | (some c2, cr3) =>
              let st := { st with src := cr3 }
              match st.parseMetadata c2 with
              | (some m, st1) => (true, some m, st1)
              | (none, st1) =>
                (false, none, { st1 with recoverable := .kRecoverChunkDecoder })
  else (false, none, st)

/-- `RecordReaderBase::CheckFileFormat` (record_reader.cc, lines 129-142). -/
def RecordReaderBase.checkFileFormatOp (st : RecordReaderBase) :
    Bool × RecordReaderBase :=
  if st.healthy then
    if st.chunkDecoder.index < st.chunkDecoder.numRecords then (true, st)
    else
      match st.src.checkFileFormat with
      | (true, cr) => (true, { st with src := cr })
      | (false, cr) =>
        let st := { st with src := cr, chunkDecoder := MChunkDecoder.cleared }
        if cr.healthy then (false, st)
        else
          (false, { st with recoverable := .kRecoverChunkReader,
                            failed := some .dataLoss })
  else (false, st)

/-- `RecordReaderBase::Size` (record_reader.cc, lines 306-311). -/
def RecordReaderBase.sizeOp (st : RecordReaderBase) :
    Bool × Option Nat × RecordReaderBase :=
  if st.healthy then
    match st.src.sizeOp with
    | some n => (true, some n, st)
    | none => (false, none, st.failWith .dataLoss)
  else (false, none, st)

/-- `RecordReaderBase::Done` (record_reader.cc, lines 124-127), reached from
`Close()`: clears the recoverable flag, closes the object, and records a
failure when the chunk decoder does not close cleanly. -/
def RecordReaderBase.done (st : RecordReaderBase) : RecordReaderBase :=
  let st := { st with recoverable := .kNo, closed := true }
  if st.chunkDecoder.healthy then st else st.failWith .dataLoss

/-- One public operation of `RecordReaderBase`, as a step relation on
states. -/
inductive RStep : RecordReaderBase → RecordReaderBase → Prop where
  | readRecord (st : RecordReaderBase) : RStep st st.readRecord.2
  | readMetadata (st : RecordReaderBase) : RStep st st.readMetadata.2.2
  | seekRecordPosition (st : RecordReaderBase) (p : Nat × Nat) :
      RStep st (st.seekRecordPosition p).2
  | seekPosition (st : RecordReaderBase) (p : Nat) :
      RStep st (st.seekPosition p).2
  | recover (st : RecordReaderBase) : RStep st st.recover.2.2
  | checkFileFormat (st : RecordReaderBase) : RStep st st.checkFileFormatOp.2
  | sizeOp (st : RecordReaderBase) : RStep st st.sizeOp.2.2
  | close (st : RecordReaderBase) : RStep st st.done

/-- States reachable through the public operations from a freshly
initialized reader over any `ChunkReader`. -/
inductive RReachable : RecordReaderBase → Prop where
  | init (cr : MChunkReader) : RReachable (RecordReaderBase.init cr)
  | step {st st1 : RecordReaderBase} :
      RReachable st → RStep st st1 → RReachable st1

/-- The health invariant of the recovery state machine: a set recoverable
flag implies a recorded failure. -/
def RecoverInvariant (st : RecordReaderBase) : Prop :=
  st.recoverable ≠ Recoverable.kNo → st.failed.isSome = true

/-! ## Theorems -/

/-- Claim C10: for every chain and message parser, `ParseFromChain` yields
the same outcome whether it takes the fast path (small chain, `TryFlat`
succeeds, parse from the flat array) or the general path (parse via the
`ChainReader`-backed zero-copy stream): the whole function coincides with
the general path. -/
theorem parseFromChain_eq_streamParse {M : Type} (p : List Byte → Option M)
    (isInit : M → Bool) (allowUninit : Bool) (src : Chain) :
    parseFromChain p isInit allowUninit src =
      parseViaZeroCopyStream p isInit allowUninit src := by
  unfold parseFromChain
  split
  · match src with
    | [] => simp [Chain.tryFlat, parseViaZeroCopyStream, Chain.flat]
    | [b] => simp [Chain.tryFlat, parseViaZeroCopyStream, Chain.flat]
    | a :: b :: t => simp [Chain.tryFlat]
  · rfl

/-- Claim C7, counterexample: on the compressed stream `[5]` (one varint of
value 5 and nothing else) with compression type snappy, the constructed
codec reader is a `SnappyReader` built without any size hint, so the varint
value 5 is not passed to the snappy decoder as a size hint. -/
theorem decompressorInit_snappy_noSizeHint :
    readVarint64 [5] = some (5, []) ∧
    decompressorInit [5] CompressionType.kSnappy =
      DecompressorInit.ok (DecompressorReader.snappyReader []) ∧
    (decompressorInit [5] CompressionType.kSnappy).sizeHint? ≠ some 5 := by
  refine ⟨rfl, rfl, by decide⟩

/-- Claim C7, amended: for compression type `None` no varint is consumed and
the source is wrapped unchanged; for every other compression type exactly
one varint `uncompressed_size` is consumed from the start of the stream
before the remainder is handed to the codec reader, the value being passed
as a size hint to the zstd decoder only (brotli and snappy receive none);
when the varint cannot be read the `Decompressor` fails with `DataLoss`. -/
theorem decompressorInit_spec (src : List Byte) (ct : CompressionType) :
    decompressorInit src CompressionType.kNone =
        DecompressorInit.ok (DecompressorReader.wrappedReader src) ∧
    (ct ≠ CompressionType.kNone → readVarint64 src = none →
      decompressorInit src ct = DecompressorInit.failed ErrorKind.dataLoss) ∧
    (∀ u rest, ct ≠ CompressionType.kNone →
      readVarint64 src = some (u, rest) →
      (decompressorInit src ct).srcRest? = some rest ∧
      (decompressorInit src ct).sizeHint? =
        (if ct = CompressionType.kZstd then some u else none)) := by
  refine ⟨rfl, ?_, ?_⟩
  · intro hne hv
    unfold decompressorInit
    rw [if_neg hne, hv]
  · intro u rest hne hv
    unfold decompressorInit
    rw [if_neg hne, hv]
    cases ct with
    | kNone => exact absurd rfl hne
    | kBrotli => exact ⟨rfl, rfl⟩
    | kZstd => exact ⟨rfl, by simp [DecompressorInit.sizeHint?]⟩
    | kSnappy => exact ⟨rfl, by simp [DecompressorInit.sizeHint?]⟩

/-- Claim C7, witness: the amended theorem evaluated on the zstd stream
`[7, 1, 2]`, whose leading varint is 7 with remainder `[1, 2]`. -/
theorem decompressorInit_spec_witness :
    (CompressionType.kZstd ≠ CompressionType.kNone ∧
      readVarint64 [7, 1, 2] = some (7, [1, 2])) ∧
    (decompressorInit [7, 1, 2] CompressionType.kZstd).srcRest? =
      some [1, 2] ∧
    (decompressorInit [7, 1, 2] CompressionType.kZstd).sizeHint? = some 7 := by
  have h := (decompressorInit_spec [7, 1, 2] CompressionType.kZstd).2.2 7 [1, 2]
    (by decide) (by decide)
  exact ⟨⟨by decide, by decide⟩, h.1, by simpa using h.2⟩

/-- Claim C1: on a reader whose recoverable flag is `kRecoverChunkDecoder`
(and which is not closed, as the assert of the source requires), `Recover`
consumes the flag, restores the reader to healthy, returns `true`, and
reports the skipped region as `[chunk_begin + index_before, current_pos]`,
where `index_before` is the record index of the chunk decoder before
recovery and `current_pos` is the numeric position of the reader after
recovery. -/
theorem recordReader_recover_chunkDecoder (st : RecordReaderBase)
    (h : st.recoverable = Recoverable.kRecoverChunkDecoder)
    (hc : st.closed = false) :
    (st.recover).1 = true ∧
    (st.recover).2.2.recoverable = Recoverable.kNo ∧
    (st.recover).2.2.healthy = true ∧
    (st.recover).2.1 =
      some (st.chunkBegin + st.chunkDecoder.index,
        (st.recover).2.2.posNumeric) := by
  simp only [RecordReaderBase.recover, h]
  simp [RecordReaderBase.healthy, RecordReaderBase.posNumeric, hc]

/-- Claim C1, witness: recovery on a concrete reader whose chunk decoder
failed at record index 1 of a three-record chunk beginning at offset 10; the
skipped region is `[11, 13]` and the reader returns to healthy. -/
theorem recordReader_recover_chunkDecoder_witness :
    ((⟨⟨[], 0, true⟩, 10, ⟨[[1], [2], [3]], 1, false⟩,
        Recoverable.kRecoverChunkDecoder, some ErrorKind.dataLoss, false⟩ :
        RecordReaderBase).recoverable = Recoverable.kRecoverChunkDecoder) ∧
    ((⟨⟨[], 0, true⟩, 10, ⟨[[1], [2], [3]], 1, false⟩,
        Recoverable.kRecoverChunkDecoder, some ErrorKind.dataLoss, false⟩ :
        RecordReaderBase).recover).1 = true ∧
    ((⟨⟨[], 0, true⟩, 10, ⟨[[1], [2], [3]], 1, false⟩,
        Recoverable.kRecoverChunkDecoder, some ErrorKind.dataLoss, false⟩ :
        RecordReaderBase).recover).2.1 = some (11, 13) := by
  have h := recordReader_recover_chunkDecoder
    ⟨⟨[], 0, true⟩, 10, ⟨[[1], [2], [3]], 1, false⟩,
      Recoverable.kRecoverChunkDecoder, some ErrorKind.dataLoss, false⟩ rfl rfl
  exact ⟨rfl, h.1, by simpa using h.2.2.2⟩

/-- Claim C2: a healthy reader positioned at the end of file — the chunk
reader healthy at the end-of-file position with no chunk beginning there,
and every record of the current chunk consumed — reads no record:
`ReadRecord` returns `false` and the reader stays healthy, with no
recoverable flag set and no failure recorded. -/
theorem recordReader_readRecord_atEof (st : RecordReaderBase)
    (hh : st.healthy = true)
    (hflag : st.recoverable = Recoverable.kNo)
    (hdh : st.chunkDecoder.healthy = true)
    (hidx : st.chunkDecoder.index = st.chunkDecoder.records.length)
    (hsh : st.src.healthy = true)
    (heof : st.src.pos = st.src.fileSize)
    (hnochunk : chunkAt st.src.chunks st.src.pos = none) :
    (st.readRecord).1 = none ∧
    (st.readRecord).2.healthy = true ∧
    (st.readRecord).2.recoverable = Recoverable.kNo ∧
    (st.readRecord).2.failed = none := by
  have hh2 := hh
  simp only [RecordReaderBase.healthy, Bool.and_eq_true, Bool.not_eq_true',
    Option.isNone_iff_eq_none] at hh2
  obtain ⟨hfailed, hclosed⟩ := hh2
  have hget : st.chunkDecoder.records[st.chunkDecoder.index]? = none := by
    rw [hidx]
    simp
  have hnc : chunkAt st.src.chunks st.src.fileSize = none := heof ▸ hnochunk
  simp [RecordReaderBase.readRecord, MChunkDecoder.readRecord, hdh, hget,
    RecordReaderBase.readRecordSlow, hh, RecordReaderBase.readRecordSlowLoop,
    RecordReaderBase.readChunkOp, MChunkReader.readChunk, hsh, hnc, hnochunk,
    heof, RecordReaderBase.healthy, hflag, hfailed, hclosed]

/-- Claim C2, witness: a reader over the empty file at position 0 with an
exhausted decoder. -/
theorem recordReader_readRecord_atEof_witness :
    ((RecordReaderBase.init ⟨[], 0, true⟩).healthy = true) ∧
    ((RecordReaderBase.init ⟨[], 0, true⟩).readRecord).1 = none ∧
    ((RecordReaderBase.init ⟨[], 0, true⟩).readRecord).2.healthy = true ∧
    ((RecordReaderBase.init ⟨[], 0, true⟩).readRecord).2.recoverable =
      Recoverable.kNo ∧
    ((RecordReaderBase.init ⟨[], 0, true⟩).readRecord).2.failed = none := by
  have h := recordReader_readRecord_atEof (RecordReaderBase.init ⟨[], 0, true⟩)
    rfl rfl rfl rfl rfl rfl rfl
  exact ⟨rfl, h⟩

/-- Claim C3: on a healthy reader (with a healthy chunk reader, and a target
boundary not beyond the end of file), `Seek` to a `RecordPosition` with
record index 0 succeeds without reading any chunk body: when the target
chunk begin equals the current one only the record index is updated; when it
differs the chunk reader is positioned at the target boundary and the chunk
decoder is reset, with no chunk consumed — which covers seeking to the
end-of-file position, where no chunk exists. -/
theorem recordReader_seekRecordPosition_indexZero (st : RecordReaderBase)
    (cb : Nat) (hh : st.healthy = true) (hsh : st.src.healthy = true)
    (hle : cb ≤ st.src.fileSize) :
    (cb = st.chunkBegin →
      st.seekRecordPosition (cb, 0) =
        (true, { st with chunkDecoder := st.chunkDecoder.setIndex 0 })) ∧
    (cb ≠ st.chunkBegin →
      st.seekRecordPosition (cb, 0) =
        (true, { st with src := { st.src with pos := cb }, chunkBegin := cb,
                         chunkDecoder := MChunkDecoder.cleared })) := by
  constructor
  · intro he
    simp [RecordReaderBase.seekRecordPosition, hh, he]
  · intro hne
    simp [RecordReaderBase.seekRecordPosition, hh, hne, MChunkReader.seek,
      hsh, hle]

/-- Claim C3, witness: seeking to record 0 of the chunk at offset 7 — the
end-of-file position of a one-chunk file — from a reader currently at chunk
begin 0. -/
theorem recordReader_seekRecordPosition_indexZero_witness :
    ((RecordReaderBase.init
        ⟨[⟨7, ChunkType.kSimple, 1, true, true, [[1]], none⟩], 0, true⟩).healthy
        = true ∧
      (7 : Nat) ≠ 0 ∧ (7 : Nat) ≤ 7) ∧
    (RecordReaderBase.init
        ⟨[⟨7, ChunkType.kSimple, 1, true, true, [[1]], none⟩], 0,
          true⟩).seekRecordPosition (7, 0) =
      (true, { RecordReaderBase.init
          ⟨[⟨7, ChunkType.kSimple, 1, true, true, [[1]], none⟩], 0, true⟩ with
        src := ⟨[⟨7, ChunkType.kSimple, 1, true, true, [[1]], none⟩], 7, true⟩,
        chunkBegin := 7,
        chunkDecoder := MChunkDecoder.cleared }) := by
  have h := (recordReader_seekRecordPosition_indexZero
    (RecordReaderBase.init
      ⟨[⟨7, ChunkType.kSimple, 1, true, true, [[1]], none⟩], 0, true⟩)
    7 rfl rfl (by decide)).2 (by decide)
  exact ⟨⟨rfl, by decide, by decide⟩, h⟩

/-- Claim C4: on a healthy reader, `Seek` to a byte position `bp` with
`chunk_begin ≤ bp ≤` the chunk reader position sets only the record index,
to `bp - chunk_begin`, without consulting the chunk reader; otherwise the
seek delegates to `SeekToChunkContaining`, and whenever the resulting chunk
boundary is at or after `bp` — seeking past a gap, or to the end of file —
the reader is positioned at that boundary with the decoder reset and no
chunk body read. -/
theorem recordReader_seekPosition_spec (st : RecordReaderBase) (bp : Nat)
    (hh : st.healthy = true) :
    (st.chunkBegin ≤ bp ∧ bp ≤ st.src.pos →
      st.seekPosition bp =
        (true, { st with chunkDecoder :=
          st.chunkDecoder.setIndex (bp - st.chunkBegin) })) ∧
    (∀ cr, ¬(st.chunkBegin ≤ bp ∧ bp ≤ st.src.pos) →
      st.src.seekToChunkContaining bp = (true, cr) → bp ≤ cr.pos →
      st.seekPosition bp =
        (true, { st with src := cr, chunkBegin := cr.pos,
                         chunkDecoder := MChunkDecoder.cleared })) := by
  constructor
  · intro hfast
    simp [RecordReaderBase.seekPosition, hh, hfast]
  · intro cr hslow hseek hge
    simp [RecordReaderBase.seekPosition, hh, hslow, hseek, hge]

/-- Claim C4, witness: seeking to byte position 5, the end of file of a
one-chunk file, from a reader whose current chunk reader position is 0;
`SeekToChunkContaining` lands exactly on 5 and the reader is positioned
there with a cleared decoder. -/
theorem recordReader_seekPosition_spec_witness :
    ((RecordReaderBase.init
        ⟨[⟨5, ChunkType.kSimple, 1, true, true, [[1]], none⟩], 0, true⟩).healthy
        = true ∧
      ¬((RecordReaderBase.init
          ⟨[⟨5, ChunkType.kSimple, 1, true, true, [[1]], none⟩], 0,
            true⟩).chunkBegin ≤ 5 ∧ (5 : Nat) ≤ 0) ∧
      (RecordReaderBase.init
          ⟨[⟨5, ChunkType.kSimple, 1, true, true, [[1]], none⟩], 0,
            true⟩).src.seekToChunkContaining 5 =
        (true, ⟨[⟨5, ChunkType.kSimple, 1, true, true, [[1]], none⟩], 5, true⟩)) ∧
    (RecordReaderBase.init
        ⟨[⟨5, ChunkType.kSimple, 1, true, true, [[1]], none⟩], 0,
          true⟩).seekPosition 5 =
      (true, { RecordReaderBase.init
          ⟨[⟨5, ChunkType.kSimple, 1, true, true, [[1]], none⟩], 0, true⟩ with
        src := ⟨[⟨5, ChunkType.kSimple, 1, true, true, [[1]], none⟩], 5, true⟩,
        chunkBegin := 5,
        chunkDecoder := MChunkDecoder.cleared }) := by
  have h := (recordReader_seekPosition_spec
    (RecordReaderBase.init
      ⟨[⟨5, ChunkType.kSimple, 1, true, true, [[1]], none⟩], 0, true⟩)
    5 rfl).2
    ⟨[⟨5, ChunkType.kSimple, 1, true, true, [[1]], none⟩], 5, true⟩
    (by decide) (by decide) (by decide)
  exact ⟨⟨rfl, by decide, by decide⟩, h⟩

/-- Claim C6: `ReadMetadata` on a healthy reader whose chunk reader is not
at position 0 fails — it returns `false` with an `InvalidArgument`
caller-misuse failure and without setting a recoverable flag; called at
position 0 it reads the file signature chunk and, when the following chunk
header (peeked, not consumed) is not of type `FileMetadata`, returns `true`
with the metadata cleared to empty, the chunk reader still positioned just
after the signature chunk. -/
theorem recordReader_readMetadata_spec (st : RecordReaderBase)
    (hh : st.healthy = true) :
    (st.src.pos ≠ 0 →
      st.readMetadata =
        (false, none, st.failWith ErrorKind.invalidArgument)) ∧
    (∀ c0 c1, st.src.pos = 0 → st.src.healthy = true →
      chunkAt st.src.chunks 0 = some c0 → c0.readOk = true →
      c0.ctype = ChunkType.kFileSignature →
      chunkAt st.src.chunks c0.size = some c1 → c1.readOk = true →
      c1.ctype ≠ ChunkType.kFileMetadata →
      st.readMetadata =
        (true, some [], { st with src := { st.src with pos := c0.size },
                                  chunkBegin := c0.size })) := by
  constructor
  · intro hp
    simp [RecordReaderBase.readMetadata, hh, hp]
  · intro c0 c1 hp hsh hc0 hr0 hct0 hc1 hr1 hct1
    simp [RecordReaderBase.readMetadata, hh, hp, MChunkReader.readChunk,
      MChunkReader.pullChunkHeader, hsh, hc0, hr0, hc1, hr1, hct1]

/-- Claim C6, witness: both branches on a two-chunk file (signature chunk of
size 3, then a simple chunk): called at position 2 the reader fails with
`InvalidArgument`; called at position 0 it returns empty metadata with the
reader positioned at offset 3. -/
theorem recordReader_readMetadata_spec_witness :
    (RecordReaderBase.init
        ⟨[⟨3, ChunkType.kFileSignature, 0, true, true, [], none⟩,
          ⟨4, ChunkType.kSimple, 1, true, true, [[1]], none⟩], 2,
          true⟩).readMetadata =
      (false, none,
        (RecordReaderBase.init
          ⟨[⟨3, ChunkType.kFileSignature, 0, true, true, [], none⟩,
            ⟨4, ChunkType.kSimple, 1, true, true, [[1]], none⟩], 2,
            true⟩).failWith ErrorKind.invalidArgument) ∧
    (RecordReaderBase.init
        ⟨[⟨3, ChunkType.kFileSignature, 0, true, true, [], none⟩,
          ⟨4, ChunkType.kSimple, 1, true, true, [[1]], none⟩], 0,
          true⟩).readMetadata =
      (true, some [],
        { RecordReaderBase.init
            ⟨[⟨3, ChunkType.kFileSignature, 0, true, true, [], none⟩,
              ⟨4, ChunkType.kSimple, 1, true, true, [[1]], none⟩], 0, true⟩ with
          src := ⟨[⟨3, ChunkType.kFileSignature, 0, true, true, [], none⟩,
                   ⟨4, ChunkType.kSimple, 1, true, true, [[1]], none⟩], 3, true⟩,
          chunkBegin := 3 }) := by
  constructor
  · exact (recordReader_readMetadata_spec
      (RecordReaderBase.init
        ⟨[⟨3, ChunkType.kFileSignature, 0, true, true, [], none⟩,
          ⟨4, ChunkType.kSimple, 1, true, true, [[1]], none⟩], 2, true⟩)
      rfl).1 (by decide)
  · exact (recordReader_readMetadata_spec
      (RecordReaderBase.init
        ⟨[⟨3, ChunkType.kFileSignature, 0, true, true, [], none⟩,
          ⟨4, ChunkType.kSimple, 1, true, true, [[1]], none⟩], 0, true⟩)
      rfl).2
      ⟨3, ChunkType.kFileSignature, 0, true, true, [], none⟩
      ⟨4, ChunkType.kSimple, 1, true, true, [[1]], none⟩
      rfl rfl rfl rfl rfl rfl rfl (by decide)

/-- A freshly initialized reader satisfies the recovery invariant. -/
theorem recovInv_init (cr : MChunkReader) :
    RecoverInvariant (RecordReaderBase.init cr) := by
  simp [RecoverInvariant, RecordReaderBase.init]

/-- `ReadChunk` preserves the recovery invariant. -/
theorem recovInv_readChunkOp {st : RecordReaderBase}
    (h : RecoverInvariant st) : RecoverInvariant st.readChunkOp.2 := by
  simp only [RecordReaderBase.readChunkOp]
  split
  · split <;> simp_all [RecoverInvariant]
  · split <;> simp_all [RecoverInvariant]

/-- `ReadChunk` preserves the recovery invariant, stated on the pair the
operation returns. -/
theorem recovInv_readChunkOp_pair {st st1 : RecordReaderBase} {b : Bool}
    (heq : st.readChunkOp = (b, st1)) (h : RecoverInvariant st) :
    RecoverInvariant st1 := by
  have h2 := recovInv_readChunkOp h
  rw [heq] at h2
  exact h2

/-- The `ReadRecordSlow` loop preserves the recovery invariant. -/
theorem recovInv_readRecordSlowLoop (fuel : Nat) :
    ∀ st : RecordReaderBase, RecoverInvariant st →
      RecoverInvariant (RecordReaderBase.readRecordSlowLoop fuel st).2 := by
  induction fuel with
  | zero => intro st h; exact h
  | succ n ih =>
    intro st h
    simp only [RecordReaderBase.readRecordSlowLoop]
    split
    · split
      · next st1 heq =>
        have h2 := recovInv_readChunkOp h
        rw [heq] at h2
        exact h2
      · next st1 heq =>
        have h2 := recovInv_readChunkOp h
        rw [heq] at h2
        split
        · simp_all [RecoverInvariant]
        · exact ih _ (by simp_all [RecoverInvariant])
    · simp_all [RecoverInvariant]

/-- `ReadRecordSlow` preserves the recovery invariant. -/
theorem recovInv_readRecordSlow {st : RecordReaderBase}
    (h : RecoverInvariant st) : RecoverInvariant st.readRecordSlow.2 := by
  simp only [RecordReaderBase.readRecordSlow]
  split
  · exact recovInv_readRecordSlowLoop _ _ h
  · exact h

/-- `ReadRecord` preserves the recovery invariant. -/
theorem recovInv_readRecord {st : RecordReaderBase}
    (h : RecoverInvariant st) : RecoverInvariant st.readRecord.2 := by
  simp only [RecordReaderBase.readRecord]
  split
  · simp_all [RecoverInvariant]
  · exact recovInv_readRecordSlow h

/-- `Recover` preserves the recovery invariant. -/
theorem recovInv_recover {st : RecordReaderBase}
    (h : RecoverInvariant st) : RecoverInvariant st.recover.2.2 := by
  simp only [RecordReaderBase.recover]
  split
  · exact h
  · split
    · simp [RecoverInvariant]
    · split <;> simp [RecoverInvariant]
    · simp [RecoverInvariant]

/-- `Seek(RecordPosition)` preserves the recovery invariant. -/
theorem recovInv_seekRecordPosition {st : RecordReaderBase} (p : Nat × Nat)
    (h : RecoverInvariant st) :
    RecoverInvariant (st.seekRecordPosition p).2 := by
  simp only [RecordReaderBase.seekRecordPosition]
  split
  · split
    · split
      · simp_all [RecoverInvariant]
      · split
        · next st1 heq =>
          exact recovInv_readChunkOp_pair heq h
        · next st1 heq =>
          have h2 := recovInv_readChunkOp_pair heq h
          simp_all [RecoverInvariant]
    · split
      · simp [RecoverInvariant]
      · split
        · simp_all [RecoverInvariant]
        · split
          · next st1 heq =>
            exact recovInv_readChunkOp_pair heq
              (by simp_all [RecoverInvariant])
          · next st1 heq =>
            have h2 := recovInv_readChunkOp_pair heq
              (by simp_all [RecoverInvariant])
            simp_all [RecoverInvariant]
  · exact h

/-- `Seek(Position)` preserves the recovery invariant. -/
theorem recovInv_seekPosition {st : RecordReaderBase} (p : Nat)
    (h : RecoverInvariant st) : RecoverInvariant (st.seekPosition p).2 := by
  simp only [RecordReaderBase.seekPosition]
  split
  · split
    · simp_all [RecoverInvariant]
    · split
      · simp [RecoverInvariant]
      · split
        · simp_all [RecoverInvariant]
        · split
          · next st1 heq =>
            exact recovInv_readChunkOp_pair heq
              (by simp_all [RecoverInvariant])
          · next st1 heq =>
            have h2 := recovInv_readChunkOp_pair heq
              (by simp_all [RecoverInvariant])
            simp_all [RecoverInvariant]
  · exact h

/-- A failed `ParseMetadata` leaves a failure recorded on the reader. -/
theorem parseMetadata_failed {st st1 : RecordReaderBase} {c : MChunk}
    (h : st.parseMetadata c = (none, st1)) : st1.failed.isSome = true := by
  simp only [RecordReaderBase.parseMetadata, RecordReaderBase.failWith] at h
  split at h
  · injection h with h1 h2
    rw [← h2]
    rfl
  · split at h
    · injection h with h1 h2
      rw [← h2]
      rfl
    · injection h with h1 h2
      cases h1

/-- `ReadMetadata` preserves the recovery invariant. -/
theorem recovInv_readMetadata {st : RecordReaderBase}
    (h : RecoverInvariant st) : RecoverInvariant st.readMetadata.2.2 := by
  simp only [RecordReaderBase.readMetadata]
  split
  · split
    · simp_all [RecoverInvariant, RecordReaderBase.failWith]
    · split
      · split <;> simp_all [RecoverInvariant]
      · split
        · split <;> simp_all [RecoverInvariant]
        · split
          · simp_all [RecoverInvariant]
          · split
            · split <;> simp_all [RecoverInvariant]
            · split
              · next m st1 heq =>
                simp only [RecordReaderBase.parseMetadata,
                  RecordReaderBase.failWith] at heq
                split at heq
                · injection heq with h1 h2
                  cases h1
                · split at heq
                  · injection heq with h1 h2
                    cases h1
                  · injection heq with h1 h2
                    rw [← h2]
                    simp_all [RecoverInvariant]
              · next st1 heq =>
                have h2 := parseMetadata_failed heq
                simp_all [RecoverInvariant]
  · exact h

/-- `CheckFileFormat` preserves the recovery invariant. -/
theorem recovInv_checkFileFormatOp {st : RecordReaderBase}
    (h : RecoverInvariant st) : RecoverInvariant st.checkFileFormatOp.2 := by
  simp only [RecordReaderBase.checkFileFormatOp]
  split
  · split
    · exact h
    · split
      · simp_all [RecoverInvariant]
      · split <;> simp_all [RecoverInvariant]
  · exact h

/-- `Size` preserves the recovery invariant. -/
theorem recovInv_sizeOp {st : RecordReaderBase}
    (h : RecoverInvariant st) : RecoverInvariant st.sizeOp.2.2 := by
  simp only [RecordReaderBase.sizeOp]
  split
  · split <;> simp_all [RecoverInvariant, RecordReaderBase.failWith]
  · exact h

/-- `Close` preserves the recovery invariant (indeed establishes it
unconditionally, since `Done` clears the flag). -/
theorem recovInv_done {st : RecordReaderBase}
    (_h : RecoverInvariant st) : RecoverInvariant st.done := by
  simp only [RecordReaderBase.done]
  split <;> simp [RecoverInvariant, RecordReaderBase.failWith]

/-- Every public operation preserves the recovery invariant. -/
theorem recovInv_step {st st1 : RecordReaderBase} (hs : RStep st st1)
    (h : RecoverInvariant st) : RecoverInvariant st1 := by
  cases hs with
  | readRecord => exact recovInv_readRecord h
  | readMetadata => exact recovInv_readMetadata h
  | seekRecordPosition p => exact recovInv_seekRecordPosition p h
  | seekPosition p => exact recovInv_seekPosition p h
  | recover => exact recovInv_recover h
  | checkFileFormat => exact recovInv_checkFileFormatOp h
  | sizeOp => exact recovInv_sizeOp h
  | close => exact recovInv_done h

/-- Every reachable state satisfies the recovery invariant. -/
theorem recovInv_reachable {st : RecordReaderBase} (h : RReachable st) :
    RecoverInvariant st := by
  induction h with
  | init cr => exact recovInv_init cr
  | step _ hs ih => exact recovInv_step hs ih

/-- Claim C5: in every state reachable through the public operations, a set
recoverable flag implies the reader is unhealthy; consequently `Recover` on
a healthy reader (flag `kNo`) returns `false` and changes no state. -/
theorem recordReader_recoverable_unhealthy (st : RecordReaderBase)
    (h : RReachable st) :
    (st.recoverable ≠ Recoverable.kNo → st.healthy = false) ∧
    (st.healthy = true → st.recover = (false, none, st)) := by
  have hinv := recovInv_reachable h
  constructor
  · intro hne
    have hsome := hinv hne
    simp [RecordReaderBase.healthy, Option.isNone_iff_eq_none]
    intro hnone
    rw [hnone] at hsome
    simp at hsome
  · intro hh
    have hk : st.recoverable = Recoverable.kNo := by
      by_contra hne
      have hsome := hinv hne
      simp [RecordReaderBase.healthy, Bool.and_eq_true,
        Option.isNone_iff_eq_none] at hh
      rw [hh.1] at hsome
      simp at hsome
    simp [RecordReaderBase.recover, hk]

/-- Claim C5, witness: the freshly initialized reader over the empty file is
reachable and healthy, and `Recover` on it returns `false` leaving it
unchanged. -/
theorem recordReader_recoverable_unhealthy_witness :
    RReachable (RecordReaderBase.init ⟨[], 0, true⟩) ∧
    (RecordReaderBase.init ⟨[], 0, true⟩).healthy = true ∧
    (RecordReaderBase.init ⟨[], 0, true⟩).recover =
      (false, none, RecordReaderBase.init ⟨[], 0, true⟩) := by
  refine ⟨RReachable.init _, rfl, ?_⟩
  exact (recordReader_recoverable_unhealthy _ (RReachable.init _)).2 rfl

/-- Claim C8: with scratch in use (the buffer pointers point at the scratch
block, as the asserts of the source require), `SyncScratchSlow` succeeds,
writes to the underlying destination exactly the `written_to_buffer` bytes
that were written into the scratch, placing them before all data written
earlier — the bytes pending in the reinstated original buffer and the bytes
already committed — and leaves `pos()` unchanged. -/
theorem syncScratchSlow_spec (w : BackwardWriterRep) (scratch : Scratch)
    (hbuf : w.buf = scratch.buffer)
    (hsize : w.bufferSize = scratch.buffer.length)
    (hwtb : w.writtenToBuffer ≤ scratch.buffer.length)
    (hstart : scratch.originalWrittenToBuffer ≤ w.startPos) :
    (syncScratchSlow w scratch).1 = true ∧
    (syncScratchSlow w scratch).2.1.totalOutput =
      w.writtenBytes ++
        (scratch.originalLimit.drop
            (scratch.originalLimit.length - scratch.originalWrittenToBuffer) ++
          w.dest) ∧
    (syncScratchSlow w scratch).2.1.pos = w.pos := by
  cases w with
  | mk dest startPos buf bufferSize wtb =>
    cases scratch with
    | mk sbuf olim obsz owtb =>
      simp only at hbuf hsize hwtb hstart
      subst hbuf hsize
      simp only [syncScratchSlow, BackwardWriterRep.setBuffer,
        BackwardWriterRep.write, BackwardWriterRep.totalOutput,
        BackwardWriterRep.writtenBytes, BackwardWriterRep.pos]
      by_cases h : wtb = buf.length
      · subst h
        simp [Nat.sub_self, List.length_drop]
        omega
      · rw [if_neg h, ite_self]
        simp [List.length_drop]
        omega

/-- Claim C8, witness: a concrete synchronization. The scratch block is
`[1, 2, 3]` with 2 bytes written (`[2, 3]`), the original buffer `[7, 8]`
had 1 byte written (`[8]`), and 2 bytes `[9, 9]` were committed before; the
synchronized writer outputs `[2, 3] ++ [8] ++ [9, 9]` and keeps `pos() = 7`. -/
theorem syncScratchSlow_spec_witness :
    ((⟨[9, 9], 5, [1, 2, 3], 3, 2⟩ : BackwardWriterRep).buf =
        (⟨[1, 2, 3], [7, 8], 2, 1⟩ : Scratch).buffer ∧
      (2 : Nat) ≤ 3 ∧ (1 : Nat) ≤ 5) ∧
    (syncScratchSlow ⟨[9, 9], 5, [1, 2, 3], 3, 2⟩
        ⟨[1, 2, 3], [7, 8], 2, 1⟩).1 = true ∧
    (syncScratchSlow ⟨[9, 9], 5, [1, 2, 3], 3, 2⟩
        ⟨[1, 2, 3], [7, 8], 2, 1⟩).2.1.totalOutput = [2, 3, 8, 9, 9] ∧
    (syncScratchSlow ⟨[9, 9], 5, [1, 2, 3], 3, 2⟩
        ⟨[1, 2, 3], [7, 8], 2, 1⟩).2.1.pos = 7 := by
  have h := syncScratchSlow_spec ⟨[9, 9], 5, [1, 2, 3], 3, 2⟩
    ⟨[1, 2, 3], [7, 8], 2, 1⟩ rfl rfl (by decide) (by decide)
  exact ⟨⟨rfl, by decide, by decide⟩, h.1, by simpa using h.2.1, by simpa using h.2.2⟩

/-- Claim C9: with scratch in use, `BehindScratch::Enter` followed
immediately by `BehindScratch::Leave` restores the complete buffer state of
the writer — limit, buffer size, amount written to buffer, and start
position (and hence `pos()`) — to exactly the values it had before
`Enter`. -/
theorem behindScratch_roundTrip (w : BackwardWriterRep) (scratch : Scratch)
    (hbuf : w.buf = scratch.buffer)
    (hsize : w.bufferSize = scratch.buffer.length)
    (hstart : scratch.originalWrittenToBuffer ≤ w.startPos) :
    (behindScratchLeave (behindScratchEnter w scratch).1 scratch
        (behindScratchEnter w scratch).2).1 = w := by
  cases w with
  | mk dest startPos buf bufferSize wtb =>
    cases scratch with
    | mk sbuf olim obsz owtb =>
      simp only at hbuf hsize hstart
      subst hbuf hsize
      simp only [behindScratchEnter, behindScratchLeave,
        BackwardWriterRep.setBuffer, BackwardWriterRep.pos,
        BackwardWriterRep.mk.injEq, true_and, and_true]
      omega

/-- Claim C9, witness: the round trip evaluated on a concrete writer whose
buffer points at the scratch block `[1, 2, 3]`. -/
theorem behindScratch_roundTrip_witness :
    ((⟨[9], 6, [1, 2, 3], 3, 1⟩ : BackwardWriterRep).buf =
        (⟨[1, 2, 3], [7, 8], 2, 4⟩ : Scratch).buffer ∧ (4 : Nat) ≤ 6) ∧
    (behindScratchLeave
        (behindScratchEnter ⟨[9], 6, [1, 2, 3], 3, 1⟩
          ⟨[1, 2, 3], [7, 8], 2, 4⟩).1
        ⟨[1, 2, 3], [7, 8], 2, 4⟩
        (behindScratchEnter ⟨[9], 6, [1, 2, 3], 3, 1⟩
          ⟨[1, 2, 3], [7, 8], 2, 4⟩).2).1 =
      ⟨[9], 6, [1, 2, 3], 3, 1⟩ := by
  exact ⟨⟨rfl, by decide⟩,
    behindScratch_roundTrip ⟨[9], 6, [1, 2, 3], 3, 1⟩
      ⟨[1, 2, 3], [7, 8], 2, 4⟩ rfl rfl (by decide)⟩

end Riegeli


